import Mathlib

/-!
Shallow embedding of the SOCKS5 proxy in src/main.rs (rust-socks5-tool).

Bytes are modelled as `Nat` (values < 256 on real inputs), byte strings as
`List Nat`.  Fallible reads (`read_exact`) become `Option`, out-of-bounds
slice indexing becomes an explicit `panic` outcome, and the I/O actions of
`handle_udp` become an `UdpAction` value.
-/

set_option maxRecDepth 8000

namespace Socks5

/-- Model of `std::net::IpAddr`: the IPv4 variant carries its four octets,
the IPv6 variant its sixteen octets (each a byte value). -/
inductive IpAddr where
  | v4 (a b c d : Nat)
  | v6 (o0 o1 o2 o3 o4 o5 o6 o7 o8 o9 o10 o11 o12 o13 o14 o15 : Nat)
deriving DecidableEq, Repr

/-- Model of `std::net::SocketAddr`: an IP address plus a port. -/
structure SockAddr where
  ip : IpAddr
  port : Nat
deriving DecidableEq, Repr

/-- `reply_error` (src/main.rs lines 379-384): the 10-byte SOCKS5 error reply
`05 REP 00 01 00 00 00 00 00 00` written to the client. -/
def reply_error (rep : Nat) : List Nat :=
  [0x05, rep, 0x00, 0x01, 0, 0, 0, 0, 0, 0]

/-- The kinds of OS errors a failed `TcpStream::connect` can report,
as distinguished by the spec's REP mapping. -/
inductive ConnectError where
  | hostUnreachable
  | networkUnreachable
  | connectionRefused
  | ttlExpired
  | other
deriving DecidableEq, Repr

/-- The reply `handle_client` sends when `TcpStream::connect` fails
(src/main.rs lines 217-224): `reply_error(&mut client_stream, 0x04)` is called
on the `Err(e)` arm without inspecting `e`, so every connect error is
answered with REP `0x04`. -/
def connectFailureReply (_e : ConnectError) : List Nat :=
  reply_error 0x04

/-- `read_exact` into a buffer of `n` bytes from a stream whose remaining
input is `input`: succeeds with the `n` bytes read and the rest of the input
exactly when enough input is available. -/
def readN (n : Nat) (input : List Nat) : Option (List Nat × List Nat) :=
  if n ≤ input.length then some (input.take n, input.drop n) else none

/-! ### UTF-8 lossy decoding

`handle_client` compares credentials after `String::from_utf8_lossy`; the
following functions model that decoder (invalid sequences are replaced by
U+FFFD following the maximal-subpart rule used by Rust's std). -/

/-- Is `b` a UTF-8 continuation byte (`0x80..=0xBF`)? -/
def isCont (b : Nat) : Bool := 0x80 ≤ b && b ≤ 0xBF

/-- Valid ranges of the second byte of a three-byte UTF-8 sequence with
lead byte `b0` (per Rust's `run_utf8_validation`). -/
def cont3 (b0 b1 : Nat) : Bool :=
  if b0 = 0xE0 then 0xA0 ≤ b1 && b1 ≤ 0xBF
  else if b0 = 0xED then 0x80 ≤ b1 && b1 ≤ 0x9F
  else isCont b1

/-- Valid ranges of the second byte of a four-byte UTF-8 sequence with
lead byte `b0` (per Rust's `run_utf8_validation`). -/
def cont4 (b0 b1 : Nat) : Bool :=
  if b0 = 0xF0 then 0x90 ≤ b1 && b1 ≤ 0xBF
  else if b0 = 0xF4 then 0x80 ≤ b1 && b1 ≤ 0x8F
  else isCont b1

/-- Model of `String::from_utf8_lossy`: decode a byte string to the list of
Unicode scalar values, replacing each maximal invalid subpart with one
U+FFFD (`0xFFFD`). -/
def utf8LossyDecode : List Nat → List Nat
  | [] => []
  | b0 :: r =>
    if b0 < 0x80 then b0 :: utf8LossyDecode r
    else if b0 < 0xC2 then 0xFFFD :: utf8LossyDecode r
    else if b0 < 0xE0 then
      match r with
      | [] => [0xFFFD]
      | b1 :: r1 =>
        if isCont b1 then ((b0 - 0xC0) * 0x40 + (b1 - 0x80)) :: utf8LossyDecode r1
        else 0xFFFD :: utf8LossyDecode (b1 :: r1)
    else if b0 < 0xF0 then
      match r with
      | [] => [0xFFFD]
      | b1 :: r1 =>
        if cont3 b0 b1 then
          match r1 with
          | [] => [0xFFFD]
          | b2 :: r2 =>
            if isCont b2 then
              ((b0 - 0xE0) * 0x1000 + (b1 - 0x80) * 0x40 + (b2 - 0x80)) :: utf8LossyDecode r2
            else 0xFFFD :: utf8LossyDecode (b2 :: r2)
        else 0xFFFD :: utf8LossyDecode (b1 :: r1)
    else if b0 < 0xF5 then
      match r with
      | [] => [0xFFFD]
      | b1 :: r1 =>
        if cont4 b0 b1 then
          match r1 with
          | [] => [0xFFFD]
          | b2 :: r2 =>
            if isCont b2 then
              match r2 with
              | [] => [0xFFFD]
              | b3 :: r3 =>
                if isCont b3 then
                  ((b0 - 0xF0) * 0x40000 + (b1 - 0x80) * 0x1000 +
                      (b2 - 0x80) * 0x40 + (b3 - 0x80)) :: utf8LossyDecode r3
                else 0xFFFD :: utf8LossyDecode (b3 :: r3)
            else 0xFFFD :: utf8LossyDecode (b2 :: r2)
        else 0xFFFD :: utf8LossyDecode (b1 :: r1)
    else 0xFFFD :: utf8LossyDecode r

/-- UTF-8 encoding of one Unicode scalar value. -/
def utf8EncodeChar (c : Nat) : List Nat :=
  if c < 0x80 then [c]
  else if c < 0x800 then [0xC0 + c / 0x40, 0x80 + c % 0x40]
  else if c < 0x10000 then
    [0xE0 + c / 0x1000, 0x80 + c / 0x40 % 0x40, 0x80 + c % 0x40]
  else
    [0xF0 + c / 0x40000, 0x80 + c / 0x1000 % 0x40, 0x80 + c / 0x40 % 0x40, 0x80 + c % 0x40]

/-- UTF-8 encoding of a list of Unicode scalar values (the byte content of a
Rust `String` holding those characters). -/
def utf8Encode (s : List Nat) : List Nat := (s.map utf8EncodeChar).flatten

/-- `s` is a list of Unicode scalar values: below `0x110000` and not a
surrogate.  The characters of a Rust `String` always satisfy this. -/
def ValidScalars (s : List Nat) : Prop :=
  ∀ c ∈ s, c < 0x110000 ∧ ¬(0xD800 ≤ c ∧ c ≤ 0xDFFF)

instance : DecidablePred ValidScalars := fun s => by
  unfold ValidScalars; infer_instance

/-- The credential comparison of `handle_client` (src/main.rs lines 144-150):
the submitted byte strings `uname`/`passwd` are decoded with
`String::from_utf8_lossy` and the results compared with `==` against the
configured `username`/`password` (given as their scalar-value sequences).
Authentication succeeds exactly when both comparisons succeed. -/
def authCheck (username password uname passwd : List Nat) : Bool :=
  utf8LossyDecode uname == username && utf8LossyDecode passwd == password

/-! ### Configuration

`Args` keeps `username` and `password` as independent `Option`s; `main`
(src/main.rs lines 33-97) performs no validation on them ever — it fails only
when the TCP bind fails — and `handle_client` (line 118) enables the
username/password method exactly when **both** options are present. -/

/-- The authentication mode a session effectively runs in. -/
inductive AuthMode where
  | noAuth
  | userPass (username password : List Nat)
deriving DecidableEq, Repr

/-- The branch `if let (Some(username), Some(password)) = (&args.username,
&args.password)` of `handle_client` (src/main.rs line 118): username/password
sub-negotiation runs only when both options are set; otherwise the no-auth
branch runs. -/
def sessionAuthMode : Option (List Nat) → Option (List Nat) → AuthMode
  | some u, some p => .userPass u p
  | some _, none => .noAuth
  | none, some _ => .noAuth
  | none, none => .noAuth

/-- Whether server startup fails, as a function of the configuration
(src/main.rs `main`, lines 34-48): the only fallible startup step is the
TCP bind; the credential options are never examined at startup. -/
def startupFails (bindFails : Bool) (_username _password : Option (List Nat)) : Bool :=
  bindFails

/-! ### Handshake (greeting, method selection, sub-negotiation)

`handle_client` lines 102-160, modelled as a pure function from the
configured credentials and the client's input byte stream to the bytes the
server writes and the outcome.  A failed `read_exact` (input exhausted) is a
`protoError` with nothing further written. -/

/-- Outcome of the greeting/authentication phase. -/
inductive HandshakeResult where
  /-- Handshake complete; request parsing continues on the remaining input. -/
  | ok (rest : List Nat)
  /-- `handle_client` returned an error; the connection is closed. -/
  | err
deriving DecidableEq, Repr

/-- The greeting, method selection and (when credentials are configured)
username/password sub-negotiation of `handle_client` (src/main.rs lines
102-160).  Returns the bytes written to the client and the outcome. -/
def handshake (username password : Option (List Nat)) (input : List Nat) :
    List Nat × HandshakeResult :=
  match input with
  | ver :: nmethods :: rest =>
    if ver ≠ 0x05 then ([], .err)
    else
      match readN nmethods rest with
      | none => ([], .err)
      | some (methods, rest2) =>
        match username, password with
        | some u, some p =>
          if ¬ methods.contains 0x02 then ([0x05, 0xFF], .err)
          else
            match rest2 with
            | aver :: rest3 =>
              if aver ≠ 0x01 then ([0x05, 0x02], .err)
              else
                match rest3 with
                | ulen :: rest4 =>
                  match readN ulen rest4 with
                  | none => ([0x05, 0x02], .err)
                  | some (uname, rest5) =>
                    match rest5 with
                    | plen :: rest6 =>
                      match readN plen rest6 with
                      | none => ([0x05, 0x02], .err)
                      | some (passwd, rest7) =>
                        if authCheck u p uname passwd then
                          ([0x05, 0x02, 0x01, 0x00], .ok rest7)
                        else
                          ([0x05, 0x02, 0x01, 0x01], .err)
                    | [] => ([0x05, 0x02], .err)
                | [] => ([0x05, 0x02], .err)
            | [] => ([0x05, 0x02], .err)
        | _, _ =>
          if ¬ methods.contains 0x00 then ([0x05, 0xFF], .err)
          else ([0x05, 0x00], .ok rest2)
  | _ => ([], .err)

/-! ### Request address decoding

The `match atyp` of `handle_client` (src/main.rs lines 175-212), as a pure
function of the ATYP byte and the remaining input. -/

/-- Parsed request target.  `u16::from_be_bytes([p1, p2])` is `p1 * 256 + p2`
for byte values. -/
inductive ReqTarget where
  | ipv4 (a b c d : Nat) (port : Nat)
  | domain (name : List Nat) (port : Nat)
  | ipv6 (o : List Nat) (port : Nat)
deriving DecidableEq, Repr

/-- Outcome of decoding the request address. -/
inductive ReqDecode where
  /-- Address decoded; `rest` is the input left after it. -/
  | ok (t : ReqTarget) (rest : List Nat)
  /-- Unsupported ATYP: `reply_error 0x08` is written and the session fails. -/
  | replyUnsupported (atyp : Nat)
  /-- A `read_exact` failed; the session fails with nothing written. -/
  | readError
deriving DecidableEq, Repr

/-- Decoding of the request address (src/main.rs lines 175-212).  For ATYP
`0x03` the length byte is read and that many name bytes follow; no lower
bound is imposed on the length. -/
def decodeRequestTarget (atyp : Nat) (input : List Nat) : ReqDecode :=
  if atyp = 0x01 then
    match input with
    | a :: b :: c :: d :: p1 :: p2 :: rest => .ok (.ipv4 a b c d (p1 * 256 + p2)) rest
    | _ => .readError
  else if atyp = 0x03 then
    match input with
    | len :: rest =>
      match readN len rest with
      | some (name, p1 :: p2 :: rest2) => .ok (.domain name (p1 * 256 + p2)) rest2
      | some (_, _) => .readError
      | none => .readError
    | [] => .readError
  else if atyp = 0x04 then
    match readN 16 input with
    | some (o, p1 :: p2 :: rest) => .ok (.ipv6 o (p1 * 256 + p2)) rest
    | some (_, _) => .readError
    | none => .readError
  else .replyUnsupported atyp

/-! ### UDP relay (`handle_udp`, src/main.rs lines 286-377)

One iteration of the `loop` is modelled as a pure function of the pinned
client IP, the current `client_udp_addr`, and the received datagram
`(src, packet)`.  Rust slice indexing past the end panics; the model makes
that outcome explicit as `UdpAction.panic`. -/

/-- The octet list of an address, as produced by `ip().octets()`. -/
def ipOctets : IpAddr → List Nat
  | .v4 a b c d => [a, b, c, d]
  | .v6 o0 o1 o2 o3 o4 o5 o6 o7 o8 o9 o10 o11 o12 o13 o14 o15 =>
    [o0, o1, o2, o3, o4, o5, o6, o7, o8, o9, o10, o11, o12, o13, o14, o15]

/-- The ATYP byte for an address on the return path (src/main.rs lines
349-352): `0x01` for V4, `0x04` for V6. -/
def ipAtyp : IpAddr → Nat
  | .v4 _ _ _ _ => 0x01
  | .v6 _ _ _ _ _ _ _ _ _ _ _ _ _ _ _ _ => 0x04

/-- The SOCKS5 UDP header `handle_udp` prepends to a target→client datagram
(src/main.rs lines 349-368): `RSV(00 00) | FRAG(00) | ATYP | ADDR |
PORT(big endian)` built from the datagram's source address.
`port.to_be_bytes()` is `[port / 256, port % 256]` for a u16. -/
def encode_udp_header (src : SockAddr) : List Nat :=
  [0x00, 0x00, 0x00, ipAtyp src.ip] ++ ipOctets src.ip ++ [src.port / 256, src.port % 256]

/-- Result of parsing the SOCKS5 UDP header of a client-sourced datagram
(src/main.rs lines 302-338). -/
inductive UdpDecode where
  /-- Numeric target decoded; `consumed` is the header length. -/
  | ok (target : SockAddr) (consumed : Nat)
  /-- ATYP `0x03`: the target is a domain name to be resolved; `consumed` is
  the header length. -/
  | domain (name : List Nat) (port : Nat) (consumed : Nat)
  /-- A `continue`: the datagram is dropped. -/
  | drop
  /-- An index out of bounds: the task panics. -/
  | panic
deriving DecidableEq, Repr

/-- The SOCKS5 UDP header parse of the client→target path (src/main.rs lines
302-338).  The code checks `len < 3` before reading `packet[0..3]`, then reads
`packet[3]` (ATYP) with no further length check, and in the ATYP `0x03` arm
reads `packet[4]` (domain length) with no further length check; those two
reads are out of bounds on packets of length 3, resp. length 4. -/
def decode_udp_endpoint (packet : List Nat) : UdpDecode :=
  match packet with
  | b0 :: b1 :: b2 :: rest =>
    if b0 ≠ 0x00 ∨ b1 ≠ 0x00 ∨ b2 ≠ 0x00 then .drop
    else
      match rest with
      | [] => .panic
      | atyp :: rest2 =>
        if atyp = 0x01 then
          if packet.length < 10 then .drop
          else
            match rest2 with
            | a :: b :: c :: d :: p1 :: p2 :: _ =>
              .ok ⟨.v4 a b c d, p1 * 256 + p2⟩ 10
            | _ => .drop
        else if atyp = 0x03 then
          match rest2 with
          | [] => .panic
          | dlen :: rest3 =>
            if packet.length < 5 + dlen + 2 then .drop
            else
              .domain (rest3.take dlen)
                (rest3.getD dlen 0 * 256 + rest3.getD (dlen + 1) 0)
                (5 + dlen + 2)
        else if atyp = 0x04 then
          if packet.length < 22 then .drop
          else
            match rest2 with
            | o0 :: o1 :: o2 :: o3 :: o4 :: o5 :: o6 :: o7 ::
              o8 :: o9 :: o10 :: o11 :: o12 :: o13 :: o14 :: o15 :: p1 :: p2 :: _ =>
              .ok ⟨.v6 o0 o1 o2 o3 o4 o5 o6 o7 o8 o9 o10 o11 o12 o13 o14 o15,
                p1 * 256 + p2⟩ 22
            | _ => .drop
        else .drop
  | _ => .drop

/-- The I/O action one `handle_udp` loop iteration performs for a datagram. -/
inductive UdpAction where
  /-- An out-of-bounds slice index: the task panics. -/
  | panic
  /-- `continue` without forwarding anything. -/
  | dropped
  /-- Client→target: send `payload` to the numeric `target`. -/
  | forwardToTarget (target : SockAddr) (payload : List Nat)
  /-- Client→target with ATYP `0x03`: resolve `name`, then send `payload`. -/
  | forwardToDomain (name : List Nat) (port : Nat) (payload : List Nat)
  /-- Target→client: send `data` to the recorded client UDP address. -/
  | sendToClient (dest : SockAddr) (data : List Nat)
deriving DecidableEq, Repr

/-- One iteration of the `handle_udp` loop (src/main.rs lines 292-376) on a
received datagram `(src, packet)`: returns the new `client_udp_addr` and the
action taken.  When `src.ip` equals the pinned client IP, `client_udp_addr`
is assigned `Some(src)` first (line 299) and the header is parsed afterwards;
otherwise the datagram is a target→client packet, sent onward only when
`client_udp_addr` is set. -/
def udpStep (clientIp : IpAddr) (clientUdpAddr : Option SockAddr)
    (src : SockAddr) (packet : List Nat) : Option SockAddr × UdpAction :=
  if src.ip = clientIp then
    let newAddr := some src
    match decode_udp_endpoint packet with
    | .ok target consumed => (newAddr, .forwardToTarget target (packet.drop consumed))
    | .domain name port consumed => (newAddr, .forwardToDomain name port (packet.drop consumed))
    | .drop => (newAddr, .dropped)
    | .panic => (newAddr, .panic)
  else
    match clientUdpAddr with
    | none => (clientUdpAddr, .dropped)
    | some clientUdp =>
      (clientUdpAddr, .sendToClient clientUdp (encode_udp_header src ++ packet))

/-! ### TCP relay (`handle_client`, src/main.rs lines 255-266)

The relay runs `tokio::io::copy` in each direction under `tokio::select!`:
whichever copy future completes first ends the select, the other future is
dropped (cancelled), and `handle_client` returns, dropping both sockets.  The
model runs the two copy tasks under an explicit interleaving schedule; a copy
task polled with chunks pending transfers one chunk, and a copy task polled
at EOF completes, firing the select. -/

/-- A relay direction. -/
inductive Dir where
  | c2t
  | t2c
deriving DecidableEq, Repr

/-- State of the two copy tasks: chunks not yet transferred and chunks
already transferred, per direction. -/
structure RelayState where
  c2tRemaining : List (List Nat)
  t2cRemaining : List (List Nat)
  c2tDelivered : List (List Nat)
  t2cDelivered : List (List Nat)
deriving DecidableEq, Repr

/-- Run the `tokio::select!` of the two copy futures under the interleaving
`sched`: each step polls the scheduled direction, which either transfers its
next pending chunk or — at EOF — completes, making the select return with
the final state.  `none` means the schedule ended before either copy
completed (the relay is still running). -/
def relayRun : List Dir → RelayState → Option (Dir × RelayState)
  | [], _ => none
  | d :: sched, st =>
    match d with
    | .c2t =>
      match st.c2tRemaining with
      | [] => some (.c2t, st)
      | chunk :: rest =>
        relayRun sched
          { st with c2tRemaining := rest, c2tDelivered := st.c2tDelivered ++ [chunk] }
    | .t2c =>
      match st.t2cRemaining with
      | [] => some (.t2c, st)
      | chunk :: rest =>
        relayRun sched
          { st with t2cRemaining := rest, t2cDelivered := st.t2cDelivered ++ [chunk] }

/-! ## Theorems -/

/-- C1 counterexample: the claim says a connect failing with ECONNREFUSED is
answered with `05 05 00 01 00 00 00 00 00 00`; the code answers it with
REP `0x04` (`05 04 ...`), so the claimed reply is not sent. -/
theorem c1_claim_false :
    connectFailureReply ConnectError.connectionRefused =
      [0x05, 0x04, 0x00, 0x01, 0, 0, 0, 0, 0, 0] ∧
    connectFailureReply ConnectError.connectionRefused ≠
      [0x05, 0x05, 0x00, 0x01, 0, 0, 0, 0, 0, 0] := by
  decide

/-- C1 (amended): for every CONNECT request whose TCP connect to the target
fails, the single error reply sent to the client is
`05 04 00 01 00 00 00 00 00 00` — REP is always `0x04` (host unreachable),
whatever the OS error was, including ECONNREFUSED. -/
theorem c1_connect_failure_always_replies_host_unreachable (e : ConnectError) :
    connectFailureReply e = [0x05, 0x04, 0x00, 0x01, 0, 0, 0, 0, 0, 0] := by
  cases e <;> rfl

/-- C2: a 3-byte datagram `00 00 00` from the pinned client IP passes the
`len < 3` check and the RSV/FRAG test, and then `packet[3]` is read with no
length check — an out-of-bounds index, so the task panics; likewise a 4-byte
datagram `00 00 00 03` reaches the unchecked `packet[4]` read.  This
contradicts the claim that every length check precedes any read. -/
theorem c2_short_udp_packet_panics :
    udpStep (IpAddr.v4 127 0 0 1) none ⟨IpAddr.v4 127 0 0 1, 4000⟩ [0x00, 0x00, 0x00] =
      (some ⟨IpAddr.v4 127 0 0 1, 4000⟩, UdpAction.panic) ∧
    udpStep (IpAddr.v4 127 0 0 1) none ⟨IpAddr.v4 127 0 0 1, 4000⟩ [0x00, 0x00, 0x00, 0x03] =
      (some ⟨IpAddr.v4 127 0 0 1, 4000⟩, UdpAction.panic) := by
  decide

/-- C5 counterexample: the claim says a request with domain-length byte 0
fails to decode; in the code `decodeRequestTarget` succeeds on it, producing
the empty domain name (here with port bytes `00 50`). -/
theorem c5_claim_false :
    decodeRequestTarget 0x03 [0, 0, 80] = ReqDecode.ok (ReqTarget.domain [] 80) [] ∧
    decodeRequestTarget 0x03 [0, 0, 80] ≠ ReqDecode.readError := by
  decide

/-- C5 (amended): the domain-length byte is not validated: for every request
with ATYP `0x03` whose length byte is 0, decoding succeeds and produces the
empty domain name with the following two bytes as the port. -/
theorem c5_zero_length_domain_decodes (p1 p2 : Nat) (rest : List Nat) :
    decodeRequestTarget 0x03 (0 :: p1 :: p2 :: rest) =
      ReqDecode.ok (ReqTarget.domain [] (p1 * 256 + p2)) rest := by
  simp [decodeRequestTarget, readN]

/-- C6 counterexample: with only a username configured (no password), startup
does not fail (with a successful bind) and the session runs in no-auth mode —
the claimed nonzero-exit configuration error does not happen. -/
theorem c6_claim_false :
    startupFails false (some [0x61]) none = false ∧
    sessionAuthMode (some [0x61]) none = AuthMode.noAuth := by
  decide

/-- C6 (amended): specifying exactly one of username and password is not
rejected: startup fails only when the bind fails, regardless of the
credential options, and every session with exactly one credential configured
silently runs in no-auth mode. -/
theorem c6_single_credential_silently_noauth (u : List Nat) (bindFails : Bool) :
    sessionAuthMode (some u) none = AuthMode.noAuth ∧
    sessionAuthMode none (some u) = AuthMode.noAuth ∧
    startupFails bindFails (some u) none = bindFails ∧
    startupFails bindFails none (some u) = bindFails :=
  ⟨rfl, rfl, rfl, rfl⟩

/-- C7: a datagram whose source IP differs from the pinned client IP is never
forwarded as client-originated (no target or domain forward), leaves
`client_udp_addr` unchanged, is dropped entirely when `client_udp_addr` is
unset, and otherwise is relayed to the client as a target→client packet. -/
theorem c7_foreign_source_never_client_originated
    (clientIp : IpAddr) (cua : Option SockAddr) (src : SockAddr) (packet : List Nat)
    (h : src.ip ≠ clientIp) :
    (∀ t payload, (udpStep clientIp cua src packet).2 ≠ UdpAction.forwardToTarget t payload) ∧
    (∀ name port payload,
      (udpStep clientIp cua src packet).2 ≠ UdpAction.forwardToDomain name port payload) ∧
    (udpStep clientIp cua src packet).1 = cua ∧
    (cua = none → udpStep clientIp cua src packet = (none, UdpAction.dropped)) ∧
    (∀ c, cua = some c →
      udpStep clientIp cua src packet =
        (some c, UdpAction.sendToClient c (encode_udp_header src ++ packet))) := by
  unfold udpStep
  rw [if_neg h]
  cases cua <;> simp

/-- Witness for C7 at a concrete foreign-source datagram with no recorded
client UDP address: it is dropped entirely. -/
theorem c7_witness :
    (SockAddr.mk (IpAddr.v4 8 8 8 8) 53).ip ≠ IpAddr.v4 127 0 0 1 ∧
    udpStep (IpAddr.v4 127 0 0 1) none ⟨IpAddr.v4 8 8 8 8, 53⟩
        [0x00, 0x00, 0x00, 0x01, 1, 2, 3, 4, 0, 80] = (none, UdpAction.dropped) :=
  ⟨by decide,
    (c7_foreign_source_never_client_originated (IpAddr.v4 127 0 0 1) none
      ⟨IpAddr.v4 8 8 8 8, 53⟩ [0x00, 0x00, 0x00, 0x01, 1, 2, 3, 4, 0, 80]
      (by decide)).2.2.2.1 rfl⟩

/-- C10: for every datagram from the pinned client IP, `client_udp_addr` is
overwritten with the datagram's full source address before the header is
validated — whatever the packet contents — and a subsequent target-sourced
datagram is therefore sent to that new address. -/
theorem c10_addr_overwritten_before_validation
    (clientIp : IpAddr) (cua : Option SockAddr) (src tsrc : SockAddr)
    (packet tpacket : List Nat)
    (h : src.ip = clientIp) (h2 : tsrc.ip ≠ clientIp) :
    (udpStep clientIp cua src packet).1 = some src ∧
    udpStep clientIp (udpStep clientIp cua src packet).1 tsrc tpacket =
      (some src, UdpAction.sendToClient src (encode_udp_header tsrc ++ tpacket)) := by
  have h1 : (udpStep clientIp cua src packet).1 = some src := by
    unfold udpStep
    rw [if_pos h]
    cases decode_udp_endpoint packet <;> rfl
  refine ⟨h1, ?_⟩
  rw [h1]
  unfold udpStep
  rw [if_neg h2]

/-- Witness for C10 at a concrete dropped datagram (nonzero FRAG byte): the
address is still overwritten and a later target datagram goes there. -/
theorem c10_witness :
    (udpStep (IpAddr.v4 127 0 0 1) none ⟨IpAddr.v4 127 0 0 1, 4001⟩ [0, 0, 1]).1 =
      some ⟨IpAddr.v4 127 0 0 1, 4001⟩ ∧
    udpStep (IpAddr.v4 127 0 0 1)
        (udpStep (IpAddr.v4 127 0 0 1) none ⟨IpAddr.v4 127 0 0 1, 4001⟩ [0, 0, 1]).1
        ⟨IpAddr.v4 8 8 8 8, 53⟩ [104, 105] =
      (some ⟨IpAddr.v4 127 0 0 1, 4001⟩,
        UdpAction.sendToClient ⟨IpAddr.v4 127 0 0 1, 4001⟩
          (encode_udp_header ⟨IpAddr.v4 8 8 8 8, 53⟩ ++ [104, 105])) :=
  c10_addr_overwritten_before_validation (IpAddr.v4 127 0 0 1) none
    ⟨IpAddr.v4 127 0 0 1, 4001⟩ ⟨IpAddr.v4 8 8 8 8, 53⟩ [0, 0, 1] [104, 105]
    (by decide) (by decide)

/-- C9: for every greeting whose first byte is not `0x05`, the handshake
writes no bytes to the client and the connection is closed with an error. -/
theorem c9_bad_version_writes_nothing
    (username password : Option (List Nat)) (input : List Nat) (v : Nat)
    (hv : input.head? = some v) (h5 : v ≠ 0x05) :
    handshake username password input = ([], HandshakeResult.err) := by
  cases input with
  | nil => simp at hv
  | cons b rest =>
    have hb : b = v := by simpa using hv
    subst hb
    cases rest with
    | nil => rfl
    | cons b2 rest2 => simp [handshake, h5]

/-- Witness for C9 at the spec's concrete greeting `04 01 00`: nothing is
written. -/
theorem c9_witness :
    ([0x04, 0x01, 0x00] : List Nat).head? = some 0x04 ∧
    handshake none none [0x04, 0x01, 0x00] = ([], HandshakeResult.err) :=
  ⟨rfl, c9_bad_version_writes_nothing none none [0x04, 0x01, 0x00] 0x04 rfl (by decide)⟩

/-- C8: emitting the SOCKS5 UDP header for a numeric endpoint and parsing it
back (with any payload following) recovers the same address and port, with a
consumed-byte count equal to the header's length. -/
theorem c8_udp_header_roundtrip (a : SockAddr) (payload : List Nat) :
    decode_udp_endpoint (encode_udp_header a ++ payload) =
      UdpDecode.ok a (encode_udp_header a).length := by
  obtain ⟨ip, port⟩ := a
  have hp : port / 256 * 256 + port % 256 = port := by omega
  cases ip <;>
    simp [encode_udp_header, decode_udp_endpoint, ipOctets, ipAtyp, hp]

/-- C3 counterexample: with the client→target direction at EOF and one chunk
still pending target→client, one poll of the client→target copy completes it
and the select returns — the relay ends with the other direction neither at
its own EOF nor failed, and its pending chunk undelivered. -/
theorem c3_claim_false :
    relayRun [Dir.c2t] ⟨[], [[1]], [], []⟩ = some (Dir.c2t, ⟨[], [[1]], [], []⟩) ∧
    (⟨[], [[1]], [], []⟩ : RelayState).t2cRemaining ≠ [] ∧
    (⟨[], [[1]], [], []⟩ : RelayState).t2cDelivered = [] := by
  decide

/-- C3 (amended): the relay returns as soon as either copy direction reaches
its EOF: at return the completed direction has nothing left, each direction's
delivered chunks followed by its still-pending chunks are exactly the
original chunks in order, and the other direction is simply cancelled (its
pending chunks may remain undelivered; no shutdown of the opposite writer is
performed). -/
theorem c3_relay_returns_on_first_eof
    (sched : List Dir) (st : RelayState) (d : Dir) (fin : RelayState)
    (h : relayRun sched st = some (d, fin)) :
    (d = Dir.c2t → fin.c2tRemaining = []) ∧
    (d = Dir.t2c → fin.t2cRemaining = []) ∧
    fin.c2tDelivered ++ fin.c2tRemaining = st.c2tDelivered ++ st.c2tRemaining ∧
    fin.t2cDelivered ++ fin.t2cRemaining = st.t2cDelivered ++ st.t2cRemaining := by
  induction sched generalizing st with
  | nil => simp [relayRun] at h
  | cons d0 sched ih =>
    cases d0 with
    | c2t =>
      cases hrem : st.c2tRemaining with
      | nil =>
        rw [relayRun, hrem] at h
        obtain ⟨hd, hfin⟩ : Dir.c2t = d ∧ st = fin := by simpa using h
        subst hd
        subst hfin
        exact ⟨fun _ => hrem, fun hc => absurd hc (by decide), by rw [hrem], rfl⟩
      | cons chunk rest =>
        rw [relayRun, hrem] at h
        have hih := ih _ h
        dsimp only at hih
        refine ⟨hih.1, hih.2.1, ?_, hih.2.2.2⟩
        rw [hih.2.2.1]
        simp
    | t2c =>
      cases hrem : st.t2cRemaining with
      | nil =>
        rw [relayRun, hrem] at h
        obtain ⟨hd, hfin⟩ : Dir.t2c = d ∧ st = fin := by simpa using h
        subst hd
        subst hfin
        exact ⟨fun hc => absurd hc (by decide), fun _ => hrem, rfl, by rw [hrem]⟩
      | cons chunk rest =>
        rw [relayRun, hrem] at h
        have hih := ih _ h
        dsimp only at hih
        refine ⟨hih.1, hih.2.1, hih.2.2.1, ?_⟩
        rw [hih.2.2.2]
        simp

/-- Unfolding lemma: an ASCII byte decodes to itself. -/
theorem lossyStep_ascii (b0 : Nat) (r : List Nat) (h : b0 < 0x80) :
    utf8LossyDecode (b0 :: r) = b0 :: utf8LossyDecode r := by
  rw [utf8LossyDecode.eq_def]
  simp [h]

/-- Unfolding lemma: an invalid lead byte (`0x80..=0xC1`) is replaced. -/
theorem lossyStep_invalidLead (b0 : Nat) (r : List Nat)
    (h1 : 0x80 ≤ b0) (h2 : b0 < 0xC2) :
    utf8LossyDecode (b0 :: r) = 0xFFFD :: utf8LossyDecode r := by
  rw [utf8LossyDecode.eq_def]
  have n1 : ¬ b0 < 0x80 := by omega
  simp [n1, h2]

/-- Unfolding lemma: a lead byte `0xF5..` is replaced. -/
theorem lossyStep_high (b0 : Nat) (r : List Nat) (h : 0xF5 ≤ b0) :
    utf8LossyDecode (b0 :: r) = 0xFFFD :: utf8LossyDecode r := by
  rw [utf8LossyDecode.eq_def]
  have n1 : ¬ b0 < 0x80 := by omega
  have n2 : ¬ b0 < 0xC2 := by omega
  have n3 : ¬ b0 < 0xE0 := by omega
  have n4 : ¬ b0 < 0xF0 := by omega
  have n5 : ¬ b0 < 0xF5 := by omega
  simp [n1, n2, n3, n4, n5]

/-- Unfolding lemma: a two-byte sequence with a valid continuation byte. -/
theorem lossyStep_two (b0 b1 : Nat) (r : List Nat)
    (hA : 0xC2 ≤ b0) (hB : b0 < 0xE0) (hc : isCont b1 = true) :
    utf8LossyDecode (b0 :: b1 :: r) =
      ((b0 - 0xC0) * 0x40 + (b1 - 0x80)) :: utf8LossyDecode r := by
  rw [utf8LossyDecode.eq_def]
  have n1 : ¬ b0 < 0x80 := by omega
  have n2 : ¬ b0 < 0xC2 := by omega
  simp [n1, n2, hB, hc]

/-- Unfolding lemma: a two-byte lead with nothing after it. -/
theorem lossyStep_twoTrunc (b0 : Nat) (hA : 0xC2 ≤ b0) (hB : b0 < 0xE0) :
    utf8LossyDecode [b0] = [0xFFFD] := by
  rw [utf8LossyDecode.eq_def]
  have n1 : ¬ b0 < 0x80 := by omega
  have n2 : ¬ b0 < 0xC2 := by omega
  simp [n1, n2, hB]

/-- Unfolding lemma: a two-byte lead with an invalid continuation byte. -/
theorem lossyStep_twoBad (b0 b1 : Nat) (r : List Nat)
    (hA : 0xC2 ≤ b0) (hB : b0 < 0xE0) (hc : ¬ isCont b1 = true) :
    utf8LossyDecode (b0 :: b1 :: r) = 0xFFFD :: utf8LossyDecode (b1 :: r) := by
  rw [utf8LossyDecode.eq_def]
  have n1 : ¬ b0 < 0x80 := by omega
  have n2 : ¬ b0 < 0xC2 := by omega
  simp [n1, n2, hB, hc]

/-- Unfolding lemma: a valid three-byte sequence. -/
theorem lossyStep_three (b0 b1 b2 : Nat) (r : List Nat)
    (hA : 0xE0 ≤ b0) (hB : b0 < 0xF0) (hc1 : cont3 b0 b1 = true)
    (hc2 : isCont b2 = true) :
    utf8LossyDecode (b0 :: b1 :: b2 :: r) =
      ((b0 - 0xE0) * 0x1000 + (b1 - 0x80) * 0x40 + (b2 - 0x80)) :: utf8LossyDecode r := by
  rw [utf8LossyDecode.eq_def]
  have n1 : ¬ b0 < 0x80 := by omega
  have n2 : ¬ b0 < 0xC2 := by omega
  have n3 : ¬ b0 < 0xE0 := by omega
  simp [n1, n2, n3, hB, hc1, hc2]

/-- Unfolding lemma: a three-byte lead with nothing after it. -/
theorem lossyStep_threeTrunc1 (b0 : Nat) (hA : 0xE0 ≤ b0) (hB : b0 < 0xF0) :
    utf8LossyDecode [b0] = [0xFFFD] := by
  rw [utf8LossyDecode.eq_def]
  have n1 : ¬ b0 < 0x80 := by omega
  have n2 : ¬ b0 < 0xC2 := by omega
  have n3 : ¬ b0 < 0xE0 := by omega
  simp [n1, n2, n3, hB]

/-- Unfolding lemma: a three-byte lead and valid second byte, nothing after. -/
theorem lossyStep_threeTrunc2 (b0 b1 : Nat)
    (hA : 0xE0 ≤ b0) (hB : b0 < 0xF0) (hc1 : cont3 b0 b1 = true) :
    utf8LossyDecode [b0, b1] = [0xFFFD] := by
  rw [utf8LossyDecode.eq_def]
  have n1 : ¬ b0 < 0x80 := by omega
  have n2 : ¬ b0 < 0xC2 := by omega
  have n3 : ¬ b0 < 0xE0 := by omega
  simp [n1, n2, n3, hB, hc1]

/-- Unfolding lemma: a three-byte lead with an invalid second byte. -/
theorem lossyStep_threeBad1 (b0 b1 : Nat) (r : List Nat)
    (hA : 0xE0 ≤ b0) (hB : b0 < 0xF0) (hc1 : ¬ cont3 b0 b1 = true) :
    utf8LossyDecode (b0 :: b1 :: r) = 0xFFFD :: utf8LossyDecode (b1 :: r) := by
  rw [utf8LossyDecode.eq_def]
  have n1 : ¬ b0 < 0x80 := by omega
  have n2 : ¬ b0 < 0xC2 := by omega
  have n3 : ¬ b0 < 0xE0 := by omega
  simp [n1, n2, n3, hB, hc1]

/-- Unfolding lemma: a three-byte lead with an invalid third byte. -/
theorem lossyStep_threeBad2 (b0 b1 b2 : Nat) (r : List Nat)
    (hA : 0xE0 ≤ b0) (hB : b0 < 0xF0) (hc1 : cont3 b0 b1 = true)
    (hc2 : ¬ isCont b2 = true) :
    utf8LossyDecode (b0 :: b1 :: b2 :: r) = 0xFFFD :: utf8LossyDecode (b2 :: r) := by
  rw [utf8LossyDecode.eq_def]
  have n1 : ¬ b0 < 0x80 := by omega
  have n2 : ¬ b0 < 0xC2 := by omega
  have n3 : ¬ b0 < 0xE0 := by omega
  simp [n1, n2, n3, hB, hc1, hc2]

/-- Unfolding lemma: a valid four-byte sequence. -/
theorem lossyStep_four (b0 b1 b2 b3 : Nat) (r : List Nat)
    (hA : 0xF0 ≤ b0) (hB : b0 < 0xF5) (hc1 : cont4 b0 b1 = true)
    (hc2 : isCont b2 = true) (hc3 : isCont b3 = true) :
    utf8LossyDecode (b0 :: b1 :: b2 :: b3 :: r) =
      ((b0 - 0xF0) * 0x40000 + (b1 - 0x80) * 0x1000 +
        (b2 - 0x80) * 0x40 + (b3 - 0x80)) :: utf8LossyDecode r := by
  rw [utf8LossyDecode.eq_def]
  have n1 : ¬ b0 < 0x80 := by omega
  have n2 : ¬ b0 < 0xC2 := by omega
  have n3 : ¬ b0 < 0xE0 := by omega
  have n4 : ¬ b0 < 0xF0 := by omega
  simp [n1, n2, n3, n4, hB, hc1, hc2, hc3]

/-- Unfolding lemma: a four-byte lead with nothing after it. -/
theorem lossyStep_fourTrunc1 (b0 : Nat) (hA : 0xF0 ≤ b0) (hB : b0 < 0xF5) :
    utf8LossyDecode [b0] = [0xFFFD] := by
  rw [utf8LossyDecode.eq_def]
  have n1 : ¬ b0 < 0x80 := by omega
  have n2 : ¬ b0 < 0xC2 := by omega
  have n3 : ¬ b0 < 0xE0 := by omega
  have n4 : ¬ b0 < 0xF0 := by omega
  simp [n1, n2, n3, n4, hB]

/-- Unfolding lemma: a four-byte lead and valid second byte, nothing after. -/
theorem lossyStep_fourTrunc2 (b0 b1 : Nat)
    (hA : 0xF0 ≤ b0) (hB : b0 < 0xF5) (hc1 : cont4 b0 b1 = true) :
    utf8LossyDecode [b0, b1] = [0xFFFD] := by
  rw [utf8LossyDecode.eq_def]
  have n1 : ¬ b0 < 0x80 := by omega
  have n2 : ¬ b0 < 0xC2 := by omega
  have n3 : ¬ b0 < 0xE0 := by omega
  have n4 : ¬ b0 < 0xF0 := by omega
  simp [n1, n2, n3, n4, hB, hc1]

/-- Unfolding lemma: four-byte lead, valid second and third bytes, nothing
after. -/
theorem lossyStep_fourTrunc3 (b0 b1 b2 : Nat)
    (hA : 0xF0 ≤ b0) (hB : b0 < 0xF5) (hc1 : cont4 b0 b1 = true)
    (hc2 : isCont b2 = true) :
    utf8LossyDecode [b0, b1, b2] = [0xFFFD] := by
  rw [utf8LossyDecode.eq_def]
  have n1 : ¬ b0 < 0x80 := by omega
  have n2 : ¬ b0 < 0xC2 := by omega
  have n3 : ¬ b0 < 0xE0 := by omega
  have n4 : ¬ b0 < 0xF0 := by omega
  simp [n1, n2, n3, n4, hB, hc1, hc2]

/-- Unfolding lemma: a four-byte lead with an invalid second byte. -/
theorem lossyStep_fourBad1 (b0 b1 : Nat) (r : List Nat)
    (hA : 0xF0 ≤ b0) (hB : b0 < 0xF5) (hc1 : ¬ cont4 b0 b1 = true) :
    utf8LossyDecode (b0 :: b1 :: r) = 0xFFFD :: utf8LossyDecode (b1 :: r) := by
  rw [utf8LossyDecode.eq_def]
  have n1 : ¬ b0 < 0x80 := by omega
  have n2 : ¬ b0 < 0xC2 := by omega
  have n3 : ¬ b0 < 0xE0 := by omega
  have n4 : ¬ b0 < 0xF0 := by omega
  simp [n1, n2, n3, n4, hB, hc1]

/-- Unfolding lemma: a four-byte lead with an invalid third byte. -/
theorem lossyStep_fourBad2 (b0 b1 b2 : Nat) (r : List Nat)
    (hA : 0xF0 ≤ b0) (hB : b0 < 0xF5) (hc1 : cont4 b0 b1 = true)
    (hc2 : ¬ isCont b2 = true) :
    utf8LossyDecode (b0 :: b1 :: b2 :: r) = 0xFFFD :: utf8LossyDecode (b2 :: r) := by
  rw [utf8LossyDecode.eq_def]
  have n1 : ¬ b0 < 0x80 := by omega
  have n2 : ¬ b0 < 0xC2 := by omega
  have n3 : ¬ b0 < 0xE0 := by omega
  have n4 : ¬ b0 < 0xF0 := by omega
  simp [n1, n2, n3, n4, hB, hc1, hc2]

/-- Unfolding lemma: a four-byte lead with an invalid fourth byte. -/
theorem lossyStep_fourBad3 (b0 b1 b2 b3 : Nat) (r : List Nat)
    (hA : 0xF0 ≤ b0) (hB : b0 < 0xF5) (hc1 : cont4 b0 b1 = true)
    (hc2 : isCont b2 = true) (hc3 : ¬ isCont b3 = true) :
    utf8LossyDecode (b0 :: b1 :: b2 :: b3 :: r) = 0xFFFD :: utf8LossyDecode (b3 :: r) := by
  rw [utf8LossyDecode.eq_def]
  have n1 : ¬ b0 < 0x80 := by omega
  have n2 : ¬ b0 < 0xC2 := by omega
  have n3 : ¬ b0 < 0xE0 := by omega
  have n4 : ¬ b0 < 0xF0 := by omega
  simp [n1, n2, n3, n4, hB, hc1, hc2, hc3]

/-- Decoding the UTF-8 encoding of one Unicode scalar value (followed by
anything) yields that scalar value followed by the decoding of the rest. -/
theorem utf8LossyDecode_encodeChar (c : Nat) (hc : c < 0x110000)
    (hs : ¬(0xD800 ≤ c ∧ c ≤ 0xDFFF)) (rest : List Nat) :
    utf8LossyDecode (utf8EncodeChar c ++ rest) = c :: utf8LossyDecode rest := by
  by_cases h1 : c < 0x80
  · have e1 : utf8EncodeChar c = [c] := by rw [utf8EncodeChar, if_pos h1]
    rw [e1, List.singleton_append, lossyStep_ascii c rest h1]
  · by_cases h2 : c < 0x800
    · have e1 : utf8EncodeChar c = [0xC0 + c / 0x40, 0x80 + c % 0x40] := by
        rw [utf8EncodeChar, if_neg h1, if_pos h2]
      have hcont : isCont (0x80 + c % 0x40) = true := by
        simp only [isCont, Bool.and_eq_true, decide_eq_true_eq]
        omega
      rw [e1, List.cons_append, List.cons_append, List.nil_append,
        lossyStep_two _ _ _ (by omega) (by omega) hcont]
      congr 1
      omega
    · by_cases h3 : c < 0x10000
      · have e1 : utf8EncodeChar c =
            [0xE0 + c / 0x1000, 0x80 + c / 0x40 % 0x40, 0x80 + c % 0x40] := by
          rw [utf8EncodeChar, if_neg h1, if_neg h2, if_pos h3]
        have hc1 : cont3 (0xE0 + c / 0x1000) (0x80 + c / 0x40 % 0x40) = true := by
          simp only [cont3, isCont]
          split_ifs with hx hy <;>
            simp only [Bool.and_eq_true, decide_eq_true_eq] <;>
            omega
        have hc2 : isCont (0x80 + c % 0x40) = true := by
          simp only [isCont, Bool.and_eq_true, decide_eq_true_eq]
          omega
        rw [e1, List.cons_append, List.cons_append, List.cons_append, List.nil_append,
          lossyStep_three _ _ _ _ (by omega) (by omega) hc1 hc2]
        congr 1
        omega
      · have e1 : utf8EncodeChar c =
            [0xF0 + c / 0x40000, 0x80 + c / 0x1000 % 0x40,
              0x80 + c / 0x40 % 0x40, 0x80 + c % 0x40] := by
          rw [utf8EncodeChar, if_neg h1, if_neg h2, if_neg h3]
        have hc1 : cont4 (0xF0 + c / 0x40000) (0x80 + c / 0x1000 % 0x40) = true := by
          simp only [cont4, isCont]
          split_ifs with hx hy <;>
            simp only [Bool.and_eq_true, decide_eq_true_eq] <;>
            omega
        have hc2 : isCont (0x80 + c / 0x40 % 0x40) = true := by
          simp only [isCont, Bool.and_eq_true, decide_eq_true_eq]
          omega
        have hc3 : isCont (0x80 + c % 0x40) = true := by
          simp only [isCont, Bool.and_eq_true, decide_eq_true_eq]
          omega
        rw [e1, List.cons_append, List.cons_append, List.cons_append, List.cons_append,
          List.nil_append,
          lossyStep_four _ _ _ _ _ (by omega) (by omega) hc1 hc2 hc3]
        congr 1
        omega

/-- Decoding the UTF-8 encoding of a list of Unicode scalar values recovers
the list. -/
theorem utf8LossyDecode_utf8Encode (s : List Nat) (h : ValidScalars s) :
    utf8LossyDecode (utf8Encode s) = s := by
  induction s with
  | nil => rfl
  | cons c s ih =>
    have hc := h c (by simp)
    have hrest : ValidScalars s := fun x hx => h x (by simp [hx])
    simp only [utf8Encode, List.map_cons, List.flatten_cons]
    rw [utf8LossyDecode_encodeChar c hc.1 hc.2]
    exact congrArg (List.cons c) (ih hrest)

/-- A byte string whose lossy decoding contains no replacement character is
the UTF-8 encoding of its decoding: on such strings the lossy comparison is
exact. -/
theorem eq_utf8Encode_of_lossy (b : List Nat) :
    0xFFFD ∉ utf8LossyDecode b → b = utf8Encode (utf8LossyDecode b) := by
  induction b using utf8LossyDecode.induct
  case case1 =>
    intro h
    rfl
  case case2 b0 r hlt ih =>
    intro h
    rw [lossyStep_ascii b0 r hlt] at h ⊢
    have h' : (0xFFFD : Nat) ∉ utf8LossyDecode r := fun hx => h (List.mem_cons_of_mem _ hx)
    rw [utf8Encode, List.map_cons, List.flatten_cons]
    have he : utf8EncodeChar b0 = [b0] := by rw [utf8EncodeChar, if_pos hlt]
    rw [he]
    simp only [List.cons_append, List.nil_append]
    exact congrArg (List.cons b0) (ih h')
  case case3 b0 r h1 h2 ih =>
    intro h
    rw [lossyStep_invalidLead b0 r (by omega) h2] at h
    simp at h
  case case4 b0 h1 h2 h3 =>
    intro h
    rw [lossyStep_twoTrunc b0 (by omega) h3] at h
    simp at h
  case case5 b0 h1 h2 h3 b1 r1 hc ih =>
    intro h
    rw [lossyStep_two b0 b1 r1 (by omega) h3 hc] at h ⊢
    have hb1 : 0x80 ≤ b1 ∧ b1 ≤ 0xBF := by
      simpa [isCont, Bool.and_eq_true, decide_eq_true_eq] using hc
    have h' : (0xFFFD : Nat) ∉ utf8LossyDecode r1 := fun hx => h (List.mem_cons_of_mem _ hx)
    rw [utf8Encode, List.map_cons, List.flatten_cons]
    have he : utf8EncodeChar ((b0 - 0xC0) * 0x40 + (b1 - 0x80)) = [b0, b1] := by
      rw [utf8EncodeChar, if_neg (by omega), if_pos (by omega)]
      simp only [List.cons.injEq]
      refine ⟨by omega, by omega, trivial⟩
    rw [he]
    simp only [List.cons_append, List.nil_append]
    exact congrArg (List.cons b0) (congrArg (List.cons b1) (ih h'))
  case case6 b0 h1 h2 h3 b1 r1 hc ih =>
    intro h
    rw [lossyStep_twoBad b0 b1 r1 (by omega) h3 hc] at h
    simp at h
  case case7 b0 h1 h2 h3 h4 =>
    intro h
    rw [lossyStep_threeTrunc1 b0 (by omega) h4] at h
    simp at h
  case case8 b0 h1 h2 h3 h4 b1 hc3 =>
    intro h
    rw [lossyStep_threeTrunc2 b0 b1 (by omega) h4 hc3] at h
    simp at h
  case case9 b0 h1 h2 h3 h4 b1 hc3 b2 r2 hc2 ih =>
    intro h
    rw [lossyStep_three b0 b1 b2 r2 (by omega) h4 hc3 hc2] at h ⊢
    have hb2 : 0x80 ≤ b2 ∧ b2 ≤ 0xBF := by
      simpa [isCont, Bool.and_eq_true, decide_eq_true_eq] using hc2
    have hb1 : 0x80 ≤ b1 ∧ b1 ≤ 0xBF ∧ (b0 = 0xE0 → 0xA0 ≤ b1) ∧ (b0 = 0xED → b1 ≤ 0x9F) := by
      unfold cont3 at hc3
      split_ifs at hc3 with hx hy
      · simp only [Bool.and_eq_true, decide_eq_true_eq] at hc3
        exact ⟨by omega, by omega, fun _ => by omega, fun hz => by omega⟩
      · simp only [Bool.and_eq_true, decide_eq_true_eq] at hc3
        exact ⟨by omega, by omega, fun hz => by omega, fun _ => by omega⟩
      · simp only [isCont, Bool.and_eq_true, decide_eq_true_eq] at hc3
        exact ⟨by omega, by omega, fun hz => by omega, fun hz => by omega⟩
    have hcp : 0x800 ≤ (b0 - 0xE0) * 0x1000 + (b1 - 0x80) * 0x40 + (b2 - 0x80) := by
      by_cases hE : b0 = 0xE0
      · have := hb1.2.2.1 hE
        omega
      · omega
    have h' : (0xFFFD : Nat) ∉ utf8LossyDecode r2 := fun hx => h (List.mem_cons_of_mem _ hx)
    rw [utf8Encode, List.map_cons, List.flatten_cons]
    have he : utf8EncodeChar ((b0 - 0xE0) * 0x1000 + (b1 - 0x80) * 0x40 + (b2 - 0x80)) =
        [b0, b1, b2] := by
      rw [utf8EncodeChar, if_neg (by omega), if_neg (by omega), if_pos (by omega)]
      simp only [List.cons.injEq]
      refine ⟨by omega, by omega, by omega, trivial⟩
    rw [he]
    simp only [List.cons_append, List.nil_append]
    exact congrArg (List.cons b0) (congrArg (List.cons b1) (congrArg (List.cons b2) (ih h')))
  case case10 b0 h1 h2 h3 h4 b1 hc3 b2 r2 hc2 ih =>
    intro h
    rw [lossyStep_threeBad2 b0 b1 b2 r2 (by omega) h4 hc3 hc2] at h
    simp at h
  case case11 b0 h1 h2 h3 h4 b1 r1 hc3 ih =>
    intro h
    rw [lossyStep_threeBad1 b0 b1 r1 (by omega) h4 hc3] at h
    simp at h
  case case12 b0 h1 h2 h3 h4 h5 =>
    intro h
    rw [lossyStep_fourTrunc1 b0 (by omega) h5] at h
    simp at h
  case case13 b0 h1 h2 h3 h4 h5 b1 hc4 =>
    intro h
    rw [lossyStep_fourTrunc2 b0 b1 (by omega) h5 hc4] at h
    simp at h
  case case14 b0 h1 h2 h3 h4 h5 b1 hc4 b2 hc2 =>
    intro h
    rw [lossyStep_fourTrunc3 b0 b1 b2 (by omega) h5 hc4 hc2] at h
    simp at h
  case case15 b0 h1 h2 h3 h4 h5 b1 hc4 b2 hc2 b3 r3 hc3 ih =>
    intro h
    rw [lossyStep_four b0 b1 b2 b3 r3 (by omega) h5 hc4 hc2 hc3] at h ⊢
    have hb2 : 0x80 ≤ b2 ∧ b2 ≤ 0xBF := by
      simpa [isCont, Bool.and_eq_true, decide_eq_true_eq] using hc2
    have hb3 : 0x80 ≤ b3 ∧ b3 ≤ 0xBF := by
      simpa [isCont, Bool.and_eq_true, decide_eq_true_eq] using hc3
    have hb1 : 0x80 ≤ b1 ∧ b1 ≤ 0xBF ∧ (b0 = 0xF0 → 0x90 ≤ b1) ∧ (b0 = 0xF4 → b1 ≤ 0x8F) := by
      unfold cont4 at hc4
      split_ifs at hc4 with hx hy
      · simp only [Bool.and_eq_true, decide_eq_true_eq] at hc4
        exact ⟨by omega, by omega, fun _ => by omega, fun hz => by omega⟩
      · simp only [Bool.and_eq_true, decide_eq_true_eq] at hc4
        exact ⟨by omega, by omega, fun hz => by omega, fun _ => by omega⟩
      · simp only [isCont, Bool.and_eq_true, decide_eq_true_eq] at hc4
        exact ⟨by omega, by omega, fun hz => by omega, fun hz => by omega⟩
    have hcp : 0x10000 ≤
        (b0 - 0xF0) * 0x40000 + (b1 - 0x80) * 0x1000 + (b2 - 0x80) * 0x40 + (b3 - 0x80) := by
      by_cases hF : b0 = 0xF0
      · have := hb1.2.2.1 hF
        omega
      · omega
    have h' : (0xFFFD : Nat) ∉ utf8LossyDecode r3 := fun hx => h (List.mem_cons_of_mem _ hx)
    rw [utf8Encode, List.map_cons, List.flatten_cons]
    have he : utf8EncodeChar
        ((b0 - 0xF0) * 0x40000 + (b1 - 0x80) * 0x1000 + (b2 - 0x80) * 0x40 + (b3 - 0x80)) =
        [b0, b1, b2, b3] := by
      rw [utf8EncodeChar, if_neg (by omega), if_neg (by omega), if_neg (by omega)]
      simp only [List.cons.injEq]
      refine ⟨by omega, by omega, by omega, by omega, trivial⟩
    rw [he]
    simp only [List.cons_append, List.nil_append]
    exact congrArg (List.cons b0) (congrArg (List.cons b1)
      (congrArg (List.cons b2) (congrArg (List.cons b3) (ih h'))))
  case case16 b0 h1 h2 h3 h4 h5 b1 hc4 b2 hc2 b3 r3 hc3 ih =>
    intro h
    rw [lossyStep_fourBad3 b0 b1 b2 b3 r3 (by omega) h5 hc4 hc2 hc3] at h
    simp at h
  case case17 b0 h1 h2 h3 h4 h5 b1 hc4 b2 r2 hc2 ih =>
    intro h
    rw [lossyStep_fourBad2 b0 b1 b2 r2 (by omega) h5 hc4 hc2] at h
    simp at h
  case case18 b0 h1 h2 h3 h4 h5 b1 r1 hc4 ih =>
    intro h
    rw [lossyStep_fourBad1 b0 b1 r1 (by omega) h5 hc4] at h
    simp at h
  case case19 b0 r h1 h2 h3 h4 h5 ih =>
    intro h
    rw [lossyStep_high b0 r (by omega)] at h
    simp at h

/-- C4 counterexample: with configured username U+FFFD (UTF-8 bytes
`EF BF BD`) and password `p`, the submitted username bytes `FF` — which are
not the configured bytes — authenticate successfully, as do the bytes
`EF BF BD` themselves: two distinct byte strings are accepted for the same
configured credential, so acceptance is not byte-for-byte equality. -/
theorem c4_claim_false :
    authCheck [0xFFFD] [0x70] [0xFF] [0x70] = true ∧
    authCheck [0xFFFD] [0x70] [0xEF, 0xBF, 0xBD] [0x70] = true ∧
    ([0xFF] : List Nat) ≠ [0xEF, 0xBF, 0xBD] := by
  decide

/-- C4 (amended): the submitted byte strings are decoded with
`String::from_utf8_lossy` (invalid sequences become U+FFFD) and the decodings
are compared against the configured credentials.  Whenever neither configured
credential contains the replacement character U+FFFD, this is exact:
authentication succeeds if and only if the submitted bytes equal the
configured credentials' UTF-8 encodings byte for byte — and then no two
distinct byte strings are accepted.  (When a configured credential does
contain U+FFFD, distinct submitted byte strings can be accepted, per the
counterexample.) -/
theorem c4_auth_exact_iff_no_replacement
    (username password uname passwd : List Nat)
    (hu : ValidScalars username) (hp : ValidScalars password)
    (hru : 0xFFFD ∉ username) (hrp : 0xFFFD ∉ password) :
    authCheck username password uname passwd = true ↔
      uname = utf8Encode username ∧ passwd = utf8Encode password := by
  unfold authCheck
  simp only [Bool.and_eq_true, beq_iff_eq]
  constructor
  · rintro ⟨h1, h2⟩
    constructor
    · have hh := eq_utf8Encode_of_lossy uname (by rw [h1]; exact hru)
      rw [hh, h1]
    · have hh := eq_utf8Encode_of_lossy passwd (by rw [h2]; exact hrp)
      rw [hh, h2]
  · rintro ⟨rfl, rfl⟩
    exact ⟨utf8LossyDecode_utf8Encode username hu, utf8LossyDecode_utf8Encode password hp⟩

/-- Witness for C4 (amended) at concrete ASCII credentials. -/
theorem c4_witness :
    ValidScalars [0x61] ∧
    (authCheck [0x61] [0x70] [0x61] [0x70] = true ↔
      [0x61] = utf8Encode [0x61] ∧ [0x70] = utf8Encode [0x70]) :=
  ⟨by decide,
    c4_auth_exact_iff_no_replacement [0x61] [0x70] [0x61] [0x70]
      (by decide) (by decide) (by decide) (by decide)⟩

/-- Witness for C3 (amended) at a concrete run: the target→client chunk is
delivered, then the client→target copy hits EOF and the relay returns. -/
theorem c3_witness :
    relayRun [Dir.t2c, Dir.c2t] ⟨[], [[2]], [], []⟩ =
      some (Dir.c2t, ⟨[], [], [], [[2]]⟩) ∧
    (⟨[], [], [], [[2]]⟩ : RelayState).c2tRemaining = [] :=
  ⟨by decide,
    (c3_relay_returns_on_first_eof [Dir.t2c, Dir.c2t] ⟨[], [[2]], [], []⟩ Dir.c2t
      ⟨[], [], [], [[2]]⟩ (by decide)).1 rfl⟩
